import Mathlib

/-!
Verification of the `fus` ADO command-line tool (Python) against its
natural-language specification.

The Python sources are shallowly embedded:

* Python `str` is modelled as `List Char` (abbreviated `Str`);
* YAML configuration documents (`dict` produced by `yaml.safe_load`) are
  modelled by the inductive `YVal` / association lists with first-match
  lookup, mirroring Python `dict` key semantics;
* Python objects traversed by `get_nested_value` (SDK models, parsed JSON)
  are modelled by the inductive `PyVal`;
* functions that can raise (`typer.Exit`, `AttributeError`) return
  `Except`/`Option`; an `Except.error` result models "the process exits
  before any write happens".

Every definition is translated from the repository sources
(`src/common/ado_utils.py`, `src/common/ado_config.py`, `src/cli/ado.py`);
the corresponding Python lines are cited next to each definition.
-/

/-- Python strings are modelled as lists of characters. -/
abbrev Str := List Char

/-- ASCII whitespace, as recognised by Python `str.strip` and by the regex
class `\s` on ASCII input (space, tab, newline, carriage return, vertical
tab, form feed).  Non-ASCII whitespace is not modelled. -/
def isPySpace (c : Char) : Bool :=
  c = ' ' || c = '\t' || c = '\n' || c = '\r' || c = '\x0b' || c = '\x0c'

/-- Python `s.split(sep)` for a one-character separator: splits on every
occurrence, keeping empty pieces (`"".split(".") == [""]`). -/
def pySplitOn (sep : Char) : Str → List Str
  | [] => [[]]
  | c :: rest =>
    let r := pySplitOn sep rest
    if c = sep then [] :: r
    else
      match r with
      | x :: xs => (c :: x) :: xs
      | [] => [[c]]

/-- Python `s.strip()`: removes leading and trailing whitespace. -/
def pyStrip (s : Str) : Str :=
  ((s.dropWhile isPySpace).reverse.dropWhile isPySpace).reverse

/-- Python `s.lower()` (ASCII case folding suffices for the claims). -/
def pyLower (s : Str) : Str := s.map Char.toLower

/-- Substring containment, Python `needle in haystack`. -/
def strInfix (needle : Str) : Str → Bool
  | [] => needle.isEmpty
  | c :: rest => needle.isPrefixOf (c :: rest) || strInfix needle rest

/-- A YAML scalar or mapping as stored in the configuration document
(`yaml.safe_load` output).  The tool itself only ever writes strings,
booleans and one-level nested mappings; YAML `null` is included because
`dict.get` returns Python `None` for it.  Numeric YAML scalars are outside
the model (no claim involves them). -/
inductive YVal where
  | str (s : Str)
  | bool (b : Bool)
  | null
  | dict (entries : List (Str × YVal))

/-- A configuration document: an insertion-ordered Python `dict` modelled
as an association list (first binding wins on lookup, as keys are unique
in a Python `dict`). -/
abbrev Doc := List (Str × YVal)

/-- Python `d.get(k)` on a `dict`. -/
def ylookup (k : Str) : Doc → Option YVal
  | [] => none
  | (k2, v) :: rest => if k2 = k then some v else ylookup k rest

/-- Python `d[k] = v` on a `dict`: replaces the value of an existing key in
place, appends a new key at the end. -/
def setKey (d : Doc) (k : Str) (v : YVal) : Doc :=
  match d with
  | [] => [(k, v)]
  | (k2, v2) :: rest => if k2 = k then (k2, v) :: rest else (k2, v2) :: setKey rest k v

/-- Python truthiness `bool(value)` on the modelled YAML values. -/
def pyTruthy : YVal → Bool
  | .str s => !s.isEmpty
  | .bool b => b
  | .null => false
  | .dict entries => !entries.isEmpty

/-- Truthiness of `d.get(k)` (Python `not value` on an absent key sees
`None`, which is falsy). -/
def truthyOpt : Option YVal → Bool
  | none => false
  | some v => pyTruthy v

/-- The sub-mapping an intermediate step of `set_nested_value` continues
into: the existing mapping under `k`, or a fresh empty one when `k` is
absent or holds a non-mapping value (`src/cli/ado.py` lines 39-45). -/
def dictUnder (k : Str) (d : Doc) : Doc :=
  match ylookup k d with
  | some (.dict m) => m
  | _ => []

/-- Walk of `set_nested_value` over the already-split key parts
(`src/cli/ado.py` lines 36-48): intermediate mappings are created, and an
intermediate non-mapping value is overwritten with a fresh mapping. -/
def set_nested_parts : List Str → Doc → YVal → Doc
  | [], d, _ => d
  | [k], d, v => setKey d k v
  | k :: k2 :: rest, d, v =>
    setKey d k (.dict (set_nested_parts (k2 :: rest) (dictUnder k d) v))

/-- `set_nested_value(config, key, value)` from `src/cli/ado.py` lines
33-48: splits `key` on `.` and walks/creates nested mappings. -/
def set_nested_value (d : Doc) (key : Str) (v : YVal) : Doc :=
  set_nested_parts (pySplitOn '.' key) d v

/-- Default fields for `repo list` (`src/common/ado_config.py` line 11). -/
def DEFAULT_REPO_FIELDS : List Str := ["id".toList, "name".toList]

/-- Default column names for `repo list` (`ado_config.py` line 12). -/
def DEFAULT_REPO_COLUMN_NAMES : List Str := ["repo_id".toList, "repo_name".toList]

/-- Comma-split followed by per-piece strip, the CSV reading used by both
`RepoConfig.columns` and `RepoConfig.column_names`. -/
def splitCsvStrip (s : Str) : List Str := (pySplitOn ',' s).map pyStrip

/-- Error outcomes of the repo-config accessors: `typeErr` models the
`AttributeError` Python would raise calling `.split` on a truthy
non-string value; `mismatch names cols` models the `typer.Exit(code=1)`
raised (after echoing a message naming both counts) when the number of
configured column names differs from the number of columns
(`ado_config.py` lines 73-78). -/
inductive CfgErr where
  | typeErr
  | mismatch (names cols : Nat)
deriving DecidableEq

def keyColumns : Str := "columns".toList
def keyColumnNames : Str := "column-names".toList
def keyOpen : Str := "open".toList
def keyRepo : Str := "repo".toList
def keyProject : Str := "project".toList
def keyOrg : Str := "org".toList
def keyServer : Str := "server".toList

/-- `RepoConfig.columns` (`ado_config.py` lines 52-58): a falsy stored
value (absent, empty string, `false`, `null`, empty mapping) yields a copy
of the defaults, otherwise the stored string is split on commas and each
piece stripped. -/
def repoColumns (d : Doc) : Except CfgErr (List Str) :=
  match ylookup keyColumns d with
  | none => .ok DEFAULT_REPO_FIELDS
  | some v =>
    if pyTruthy v then
      match v with
      | .str s => .ok (splitCsvStrip s)
      | _ => .error .typeErr
    else .ok DEFAULT_REPO_FIELDS

/-- Python `d.get(k) is None`: true when the key is absent from the dict
AND when it is present but stored as YAML `null` (`dict.get` returns the
`None` object in both cases). -/
def pyGetIsNone (w : Option YVal) : Bool :=
  match w with
  | none => true
  | some .null => true
  | some _ => false

/-- `RepoConfig.column_names` (`ado_config.py` lines 60-79).  `columns` is
computed first (line 64).  A falsy `column-names` value falls back to the
default display names when `self._data.get("columns") is None` — the
`columns` key absent or stored as `null` — and to the field list itself
otherwise; a configured value is CSV-split and its count validated
against the column count, a mismatch raising `typer.Exit(code=1)` with a
message naming both counts. -/
def repoColumnNames (d : Doc) : Except CfgErr (List Str) :=
  let value := ylookup keyColumnNames d
  match repoColumns d with
  | .error e => .error e
  | .ok cols =>
    if truthyOpt value then
      match value with
      | some (.str s) =>
        let names := splitCsvStrip s
        if names.length ≠ cols.length then .error (.mismatch names.length cols.length)
        else .ok names
      | _ => .error .typeErr
    else if pyGetIsNone (ylookup keyColumns d) then .ok DEFAULT_REPO_COLUMN_NAMES
    else .ok cols

/-- `RepoConfig.open` (`ado_config.py` lines 81-87): `d.get("open")` is
`None` both when the key is absent and when it is stored as YAML `null`;
in both cases the accessor returns `True`, otherwise `bool(value)`. -/
def repoOpen (d : Doc) : Bool :=
  match ylookup keyOpen d with
  | none => true
  | some .null => true
  | some v => pyTruthy v

/-- Header resolution of `repo list` (`src/cli/ado.py` lines 219-220):
fields then display names are read from the config; a `typer.Exit` raised
by `column_names` propagates (it is not an `AdoClientError`), aborting the
command with exit code 1.  Returns the pair (fields, headers) on
success. -/
def repo_list_headers (d : Doc) : Except CfgErr (List Str × List Str) :=
  match repoColumns d with
  | .error e => .error e
  | .ok fields =>
    match repoColumnNames d with
    | .error e => .error e
    | .ok names => .ok (fields, names)

/-- The six options of `config set` (`src/cli/ado.py` lines 80-87), each
`none` when not passed on the command line. -/
structure SetOpts where
  project : Option Str
  org : Option Str
  server : Option Str
  repo_columns : Option Str
  repo_column_names : Option Str
  repo_open : Option Str

/-- The two `typer.Exit(code=1)` error paths of `config set`, both taken
before `write_config` is reached (`src/cli/ado.py` lines 112-123). -/
inductive SetErr where
  | invalidOpen
  | noOptions
deriving DecidableEq

/-- One top-level entry of the `updates` dict applied by
`existing_config.update(updates)` (`src/cli/ado.py` lines 90-103). -/
def applyTop (d : Doc) (k : Str) : Option Str → Doc
  | none => d
  | some v => setKey d k (.str v)

/-- `config_set` (`src/cli/ado.py` lines 79-130): top-level updates are
merged, then `repo.columns`, `repo.column-names` and `repo.open` are
applied via `set_nested_value`; an invalid `--repo.open` literal exits
with code 1 (before the at-least-one-option check and before any write),
as does providing no option at all.  The returned document is the one
passed to `write_config`; an error result means nothing is written. -/
def config_set (o : SetOpts) (d : Doc) : Except SetErr Doc :=
  let d1 := applyTop d keyProject o.project
  let d2 := applyTop d1 keyOrg o.org
  let d3 := applyTop d2 keyServer o.server
  let d4 := match o.repo_columns with
    | none => d3
    | some v => set_nested_value d3 "repo.columns".toList (.str v)
  let d5 := match o.repo_column_names with
    | none => d4
    | some v => set_nested_value d4 "repo.column-names".toList (.str v)
  match o.repo_open with
  | some v =>
    if pyLower v = "true".toList then
      .ok (set_nested_value d5 "repo.open".toList (.bool true))
    else if pyLower v = "false".toList then
      .ok (set_nested_value d5 "repo.open".toList (.bool false))
    else .error .invalidOpen
  | none =>
    if o.project.isNone && o.org.isNone && o.server.isNone &&
       o.repo_columns.isNone && o.repo_column_names.isNone then
      .error .noOptions
    else .ok d5

/-- The on-disk document after running `config set`: unchanged whenever
the command exits before reaching `write_config`. -/
def config_set_disk (o : SetOpts) (d : Doc) : Doc :=
  match config_set o d with
  | .ok r => r
  | .error _ => d

example : pySplitOn '.' "repo.columns".toList = ["repo".toList, "columns".toList] := rfl
example : pySplitOn '.' "a".toList = ["a".toList] := rfl
example : splitCsvStrip " id , name".toList = ["id".toList, "name".toList] := rfl
example : repoColumns [] = .ok DEFAULT_REPO_FIELDS := rfl
example : repoColumnNames [(keyColumns, .str "id,name".toList)] = .ok ["id".toList, "name".toList] := rfl
example : repoColumnNames [] = .ok DEFAULT_REPO_COLUMN_NAMES := rfl
example :
    repoColumnNames [(keyColumns, .str "a,b".toList), (keyColumnNames, .str "X".toList)] =
      .error (.mismatch 1 2) := rfl
example :
    config_set (SetOpts.mk none none none none none (some "bogus".toList)) [] =
      .error .invalidOpen := rfl
example :
    config_set (SetOpts.mk none none none none none none) [] = .error .noOptions := rfl
example :
    config_set (SetOpts.mk none none none none none (some "True".toList)) [] =
      .ok [(keyRepo, .dict [(keyOpen, .bool true)])] := rfl

/-- Splits a string at the first occurrence of `c`: `some (pre, post)`
with `s = pre ++ c :: post` and `c ∉ pre`, or `none` when `c` does not
occur.  This captures how the regex fragments `[^X]+X` and `[^X]*X`
consume input: the character class cannot cross an `X`, so the literal
`X` is forced onto the first occurrence. -/
def splitAtFirst (c : Char) : Str → Option (Str × Str)
  | [] => none
  | x :: xs =>
    if x = c then some ([], xs)
    else
      match splitAtFirst c xs with
      | some (pre, post) => some (x :: pre, post)
      | none => none

/-- The regex fragment `([^/]+)/`: a nonempty slash-free segment followed
by a literal slash.  Backtracking cannot produce any other decomposition:
`[^/]+` is forced to stop at the first slash, and any shorter attempt
makes the literal `/` face a non-slash character. -/
def segPat (s : Str) : Option (Str × Str) :=
  match splitAtFirst '/' s with
  | some (seg, rest) => if seg.isEmpty then none else some (seg, rest)
  | none => none

/-- Character class `[^/\s]` used for the repository segment. -/
def isRepoChar (c : Char) : Bool := !(c = '/' || isPySpace c)

/-- Effect of the trailing `(?:\.git)?$` after the non-greedy repository
group `([^/\s]+?)`: the shortest nonempty match is preferred, so a
`.git` suffix is stripped exactly when something nonempty precedes it. -/
def stripDotGit (t : Str) : Str :=
  if 4 < t.length ∧ t.drop (t.length - 4) = ".git".toList then t.take (t.length - 4)
  else t

/-- The regex tail `([^/\s]+?)(?:\.git)?$` applied to the remainder of the
URL: it matches iff the remainder is nonempty and free of slashes and
whitespace, and the captured group is the remainder with a proper `.git`
suffix stripped. -/
def matchRepoTail (t : Str) : Option Str :=
  if t.isEmpty then none
  else if t.all isRepoChar then some (stripDotGit t) else none

/-- The body of the HTTPS pattern after the optional username part:
`([^/]+)/([^/]+)/([^/]+)/_git/([^/\s]+?)(?:\.git)?$`, yielding
(server, org, project, repo) captures (`ado_utils.py` line 22). -/
def matchCore (s : Str) : Option (Str × Str × Str × Str) :=
  match segPat s with
  | none => none
  | some (server, r0) =>
    match segPat r0 with
    | none => none
    | some (org, r1) =>
      match segPat r1 with
      | none => none
      | some (project, r2) =>
        if "_git/".toList.isPrefixOf r2 then
          match matchRepoTail (r2.drop 5) with
          | some repo => some (server, org, project, repo)
          | none => none
        else none

/-- `re.match` of the HTTPS pattern
`https://(?:[^@]+@)?([^/]+)/([^/]+)/([^/]+)/_git/([^/\s]+?)(?:\.git)?$`
(`ado_utils.py` lines 22-23).  The greedy optional username group is
attempted first; `[^@]+@` is forced to end at the first `@`, and when the
rest of the pattern then fails, the engine falls back to matching without
the username part. -/
def matchHttps (url : Str) : Option (Str × Str × Str × Str) :=
  if "https://".toList.isPrefixOf url then
    let rest := url.drop 8
    let viaUser :=
      match splitAtFirst '@' rest with
      | some (pre, post) => if pre.isEmpty then none else matchCore post
      | none => none
    match viaUser with
    | some r => some r
    | none => matchCore rest
  else none

/-- `re.match` of the SSH pattern
`git@ssh\.dev\.azure\.com:v3/([^/]+)/([^/]+)/([^/\s]+?)(?:\.git)?$`
(`ado_utils.py` line 39). -/
def matchSsh (url : Str) : Option (Str × Str × Str) :=
  let pfx := "git@ssh.dev.azure.com:v3/".toList
  if pfx.isPrefixOf url then
    match segPat (url.drop pfx.length) with
    | none => none
    | some (org, r1) =>
      match segPat r1 with
      | none => none
      | some (project, r2) =>
        match matchRepoTail r2 with
        | some repo => some (org, project, repo)
        | none => none
  else none

/-- `parse_ado_remote_url` (`ado_utils.py` lines 9-47): tries the HTTPS
pattern (normalising any server containing `dev.azure.com` to the cloud
URL and prefixing `https://` otherwise), then the SSH pattern (always the
cloud server), returning `none` when neither matches. -/
def parse_ado_remote_url (url : Str) : Option (Str × Str × Str × Str) :=
  match matchHttps url with
  | some (server, org, project, repo) =>
    let serverNorm :=
      if strInfix "dev.azure.com".toList server then "https://dev.azure.com".toList
      else "https://".toList ++ server
    some (serverNorm, org, project, repo)
  | none =>
    match matchSsh url with
    | some (org, project, repo) =>
      some ("https://dev.azure.com".toList, org, project, repo)
    | none => none

/-- `build_ado_repo_url` (`ado_utils.py` lines 50-69): concatenates
`server/org/project/_git/repo`, appending `?version=GB{branch}` when a
branch is given. -/
def build_ado_repo_url (server org project repo : Str) (branch : Option Str) : Str :=
  let base := server ++ ('/' :: org) ++ ('/' :: project) ++ "/_git/".toList ++ repo
  match branch with
  | some b => base ++ "?version=GB".toList ++ b
  | none => base

example :
    parse_ado_remote_url "https://dev.azure.com/Org/Proj/_git/Repo".toList =
      some ("https://dev.azure.com".toList, "Org".toList, "Proj".toList, "Repo".toList) := rfl
example :
    parse_ado_remote_url "https://user@dev.azure.com/Org/Proj/_git/Repo.git".toList =
      some ("https://dev.azure.com".toList, "Org".toList, "Proj".toList, "Repo".toList) := rfl
example :
    parse_ado_remote_url "git@ssh.dev.azure.com:v3/Org/Proj/Repo".toList =
      some ("https://dev.azure.com".toList, "Org".toList, "Proj".toList, "Repo".toList) := rfl
example :
    parse_ado_remote_url "https://tfs.example.org/Org/Proj/_git/Repo".toList =
      some ("https://tfs.example.org".toList, "Org".toList, "Proj".toList, "Repo".toList) := rfl
example : parse_ado_remote_url "https://example.com/x".toList = none := rfl
example :
    build_ado_repo_url "https://dev.azure.com".toList "o".toList "p".toList "r".toList
      (some "main".toList) = "https://dev.azure.com/o/p/_git/r?version=GBmain".toList := rfl
example :
    parse_ado_remote_url
        (build_ado_repo_url "https://dev.azure.com".toList "o".toList "p".toList
          "r.git".toList none) =
      some ("https://dev.azure.com".toList, "o".toList, "p".toList, "r".toList) := rfl

/-- A Python runtime value reachable while `get_nested_value` traverses a
repository object: attribute-bearing objects (SDK models, mocks), strings,
and the values `json.loads` can produce.  JSON numbers are modelled as
integers (no claim involves floats). -/
inductive PyVal where
  | str (s : Str)
  | int (n : Int)
  | bool (b : Bool)
  | null
  | list (xs : List PyVal)
  | dict (entries : List (Str × PyVal))
  | obj (attrs : List (Str × PyVal))

/-- Attribute lookup on the entries of a `PyVal.dict` or `PyVal.obj`. -/
def plookup (k : Str) : List (Str × PyVal) → Option PyVal
  | [] => none
  | (k2, v) :: rest => if k2 = k then some v else plookup k rest

/-- Python `getattr(current, part)`: succeeds only on attribute-bearing
objects; on strings, numbers, parsed JSON dicts and lists an arbitrary
attribute name raises `AttributeError` (built-in method names such as
`items` are not modelled). -/
def pyGetattr : PyVal → Str → Option PyVal
  | .obj attrs, name => plookup name attrs
  | _, _ => none

/-- JSON whitespace accepted between tokens by `json.loads`. -/
def jSkipWs (s : Str) : Str :=
  s.dropWhile (fun c => c = ' ' || c = '\t' || c = '\n' || c = '\r')

/-- Value of a hexadecimal digit, for `\uXXXX` escapes. -/
def hexVal (c : Char) : Option Nat :=
  if '0' ≤ c ∧ c ≤ '9' then some (c.toNat - '0'.toNat)
  else if 'a' ≤ c ∧ c ≤ 'f' then some (c.toNat - 'a'.toNat + 10)
  else if 'A' ≤ c ∧ c ≤ 'F' then some (c.toNat - 'A'.toNat + 10)
  else none

/-- Body of a JSON string literal, after the opening quote: returns the
decoded content and the remainder after the closing quote.  Escapes are
decoded as by `json.loads`; surrogate pairs and the rejection of raw
control characters are not modelled (no claim exercises them). -/
def jString (fuel : Nat) (s : Str) : Option (Str × Str) :=
  match fuel, s with
  | 0, _ => none
  | _, [] => none
  | fuel + 1, c :: rest =>
    if c = '"' then some ([], rest)
    else if c = '\\' then
      match rest with
      | [] => none
      | e :: rest2 =>
        if e = 'u' then
          match rest2 with
          | h1 :: h2 :: h3 :: h4 :: rest3 =>
            match hexVal h1, hexVal h2, hexVal h3, hexVal h4 with
            | some a, some b, some c2, some d =>
              match jString fuel rest3 with
              | some (content, r) =>
                some (Char.ofNat (((a * 16 + b) * 16 + c2) * 16 + d) :: content, r)
              | none => none
            | _, _, _, _ => none
          | _ => none
        else
          let dec : Option Char :=
            if e = '"' then some '"'
            else if e = '\\' then some '\\'
            else if e = '/' then some '/'
            else if e = 'b' then some '\x08'
            else if e = 'f' then some '\x0c'
            else if e = 'n' then some '\n'
            else if e = 'r' then some '\r'
            else if e = 't' then some '\t'
            else none
          match dec with
          | some ch =>
            match jString fuel rest2 with
            | some (content, r) => some (ch :: content, r)
            | none => none
          | none => none
    else
      match jString fuel rest with
      | some (content, r) => some (c :: content, r)
      | none => none

/-- An integer JSON number at the head of `s` (optional minus sign, no
leading zeros).  Numbers with a fraction or exponent are floats, which are
outside the model, so they make the whole parse fail rather than produce a
wrong value. -/
def jNumber (s : Str) : Option (PyVal × Str) :=
  let (neg, s1) :=
    match s with
    | '-' :: rest => (true, rest)
    | _ => (false, s)
  let digits := s1.takeWhile Char.isDigit
  let rest := s1.dropWhile Char.isDigit
  if digits.isEmpty then none
  else if digits.length > 1 ∧ digits.headD '0' = '0' then none
  else
    match rest with
    | '.' :: _ => none
    | 'e' :: _ => none
    | 'E' :: _ => none
    | _ =>
      let n : Nat := digits.foldl (fun acc c => acc * 10 + (c.toNat - '0'.toNat)) 0
      some (.int (if neg then -(n : Int) else (n : Int)), rest)

/-- Members of a JSON object, positioned after `{` and any whitespace;
`pv` parses one JSON value.  Returns the entries and the remainder after
the closing brace. -/
def jMembers (pv : Str → Option (PyVal × Str)) : Nat → Str → Option (List (Str × PyVal) × Str)
  | 0, _ => none
  | fuel + 1, s =>
    match s with
    | '"' :: afterQuote =>
      match jString (afterQuote.length + 1) afterQuote with
      | none => none
      | some (key, afterKey) =>
        match jSkipWs afterKey with
        | ':' :: afterColon =>
          match pv afterColon with
          | none => none
          | some (v, afterVal) =>
            match jSkipWs afterVal with
            | ',' :: afterComma =>
              match jMembers pv fuel (jSkipWs afterComma) with
              | some (entries, r) => some ((key, v) :: entries, r)
              | none => none
            | '\x7d' :: afterBrace => some ([(key, v)], afterBrace)
            | _ => none
        | _ => none
    | _ => none

/-- Items of a JSON array, positioned after `[` and any whitespace. -/
def jItems (pv : Str → Option (PyVal × Str)) : Nat → Str → Option (List PyVal × Str)
  | 0, _ => none
  | fuel + 1, s =>
    match pv s with
    | none => none
    | some (v, afterVal) =>
      match jSkipWs afterVal with
      | ',' :: afterComma =>
        match jItems pv fuel (jSkipWs afterComma) with
        | some (items, r) => some (v :: items, r)
        | none => none
      | ']' :: afterBracket => some ([v], afterBracket)
      | _ => none

/-- One JSON value at the head of the input (after which input may
remain), with enough fuel. -/
def jValue : Nat → Str → Option (PyVal × Str)
  | 0, _ => none
  | fuel + 1, s =>
    match jSkipWs s with
    | [] => none
    | c :: rest =>
      if c = '"' then
        match jString (rest.length + 1) rest with
        | some (content, r) => some (.str content, r)
        | none => none
      else if c = '\x7b' then
        match jSkipWs rest with
        | '\x7d' :: r => some (.dict [], r)
        | s2 =>
          match jMembers (jValue fuel) (s2.length + 1) s2 with
          | some (entries, r) => some (.dict entries, r)
          | none => none
      else if c = '[' then
        match jSkipWs rest with
        | ']' :: r => some (.list [], r)
        | s2 =>
          match jItems (jValue fuel) (s2.length + 1) s2 with
          | some (items, r) => some (.list items, r)
          | none => none
      else if "true".toList.isPrefixOf (c :: rest) then some (.bool true, rest.drop 3)
      else if "false".toList.isPrefixOf (c :: rest) then some (.bool false, rest.drop 4)
      else if "null".toList.isPrefixOf (c :: rest) then some (.null, rest.drop 3)
      else jNumber (c :: rest)

/-- `json.loads(s)`: a single JSON document with only surrounding
whitespace; anything else raises `JSONDecodeError`, modelled as `none`. -/
def json_loads (s : Str) : Option PyVal :=
  match jValue (s.length + 1) s with
  | some (v, rest) => if (jSkipWs rest).isEmpty then some v else none
  | none => none

/-- Python `parts.index(part)`: the index of the FIRST occurrence
(`list.index` never sees a missing element here, since `part` is drawn
from `parts`). -/
def idxOf (x : Str) : List Str → Nat
  | [] => 0
  | y :: ys => if y = x then 0 else idxOf x ys + 1

/-- The loop of `get_nested_value` (`ado_utils.py` lines 107-117) over the
remaining parts, with `parts` the full split list: after each attribute
access, a string value is tentatively JSON-parsed when
`parts.index(part) < len(parts) - 1` — the index of the first occurrence
of the current part name, not the loop position. -/
def gnvLoop (parts : List Str) : List Str → PyVal → Except Unit PyVal
  | [], current => .ok current
  | part :: rest, current =>
    match pyGetattr current part with
    | none => .error ()
    | some v =>
      let v2 :=
        match v with
        | .str s =>
          if idxOf part parts < parts.length - 1 then
            match json_loads s with
            | some j => j
            | none => v
          else v
        | _ => v
      gnvLoop parts rest v2

/-- `get_nested_value(obj, field_path)` (`ado_utils.py` lines 88-119):
dot-splits the path and walks attributes; `Except.error ()` models the
`AttributeError` escaping to the caller. -/
def get_nested_value (o : PyVal) (field_path : Str) : Except Unit PyVal :=
  gnvLoop (pySplitOn '.' field_path) (pySplitOn '.' field_path) o

/-- Python `int(s)` on a string: strips whitespace, accepts an optional
sign followed by one or more digits, raises `ValueError` otherwise
(digit-grouping underscores are not modelled; no claim involves them). -/
def pyInt (s : Str) : Option Int :=
  let t := pyStrip s
  let (neg, t1) :=
    match t with
    | '-' :: rest => (true, rest)
    | '+' :: rest => (false, rest)
    | _ => (false, t)
  if t1.isEmpty then none
  else if t1.all Char.isDigit then
    let n : Nat := t1.foldl (fun acc c => acc * 10 + (c.toNat - '0'.toNat)) 0
    some (if neg then -(n : Int) else (n : Int))
  else none

/-- Outcomes of the interactive selector (`src/cli/ado.py` lines
248-268). -/
inductive OpenErr where
  | invalidNumber
  | outOfRange (hi : Nat)
deriving DecidableEq

/-- The interactive selector of `repo list --open` (`src/cli/ado.py`
lines 248-268), given the displayed repositories' web URLs and the line
read from standard input: `int(...)` failure echoes
`Error: Invalid number` and exits with code 1; an index outside
`[1, len(repos)]` echoes a range error and exits with code 1; otherwise
the selected URL is opened. -/
def open_prompt (webUrls : List Str) (inp : Str) : Except OpenErr Str :=
  match pyInt inp with
  | none => .error .invalidNumber
  | some n =>
    if n < 1 ∨ n > (webUrls.length : Int) then .error (.outOfRange webUrls.length)
    else
      match webUrls.get? (n - 1).toNat with
      | some u => .ok u
      | none => .error (.outOfRange webUrls.length)

example : json_loads "\x7b\"b\": 5\x7d".toList = some (.dict [("b".toList, .int 5)]) := rfl
example : json_loads "[1, 2]".toList = some (.list [.int 1, .int 2]) := rfl
example : json_loads "\x7b\"a\": \x7b\"b\": true\x7d\x7d".toList =
    some (.dict [("a".toList, .dict [("b".toList, .bool true)])]) := rfl
example : json_loads "nope".toList = none := rfl
example : json_loads " -12 ".toList = some (.int (-12)) := rfl
example : json_loads "1.5".toList = none := rfl
example : json_loads "\"hi\"".toList = some (.str "hi".toList) := rfl
example :
    get_nested_value (.obj [("name".toList, .str "x".toList)]) "name".toList =
      .ok (.str "x".toList) := rfl
example :
    get_nested_value
      (.obj [("project".toList, .obj [("name".toList, .str "P".toList)])])
      "project.name".toList = .ok (.str "P".toList) := rfl
example : get_nested_value (.obj []) "missing".toList = .error () := rfl
example : pyInt "".toList = none := rfl
example : pyInt " 2 ".toList = some 2 := rfl
example : pyInt "abc".toList = none := rfl
example : open_prompt ["u1".toList, "u2".toList] "2".toList = .ok "u2".toList := rfl
example : open_prompt ["u1".toList, "u2".toList] "0".toList = .error (.outOfRange 2) := rfl
example : open_prompt ["u1".toList, "u2".toList] "abc".toList = .error .invalidNumber := rfl

theorem ylookup_setKey_self (d : Doc) (k : Str) (v : YVal) :
    ylookup k (setKey d k v) = some v := by
  induction d with
  | nil => simp [setKey, ylookup]
  | cons h t ih =>
    obtain ⟨k2, v2⟩ := h
    by_cases hk : k2 = k
    · subst hk; simp [setKey, ylookup]
    · simp [setKey, ylookup, hk, ih]

theorem ylookup_setKey_ne (d : Doc) (k kq : Str) (v : YVal) (h : kq ≠ k) :
    ylookup kq (setKey d k v) = ylookup kq d := by
  induction d with
  | nil =>
    have hk : k ≠ kq := fun hh => h hh.symm
    simp [setKey, ylookup, hk]
  | cons hd t ih =>
    obtain ⟨k2, v2⟩ := hd
    by_cases hk : k2 = k
    · subst hk
      have : k2 ≠ kq := fun hh => h hh.symm
      simp [setKey, ylookup, this]
    · by_cases hq : k2 = kq
      · subst hq; simp [setKey, ylookup, hk]
      · simp [setKey, ylookup, hk, hq, ih]

theorem setKey_id (d : Doc) (k : Str) (v : YVal) (h : ylookup k d = some v) :
    setKey d k v = d := by
  induction d with
  | nil => simp [ylookup] at h
  | cons hd t ih =>
    obtain ⟨k2, v2⟩ := hd
    by_cases hk : k2 = k
    · subst hk
      simp [ylookup] at h
      simp [setKey, h]
    · simp [ylookup, hk] at h
      simp [setKey, hk, ih h]

theorem set_nested_two (d : Doc) (k1 k2 : Str) (v : YVal) :
    set_nested_parts [k1, k2] d v =
      setKey d k1 (.dict (setKey (dictUnder k1 d) k2 v)) := rfl

/-- C7: setting the dotted key `a.b` to `v` and then reading key `a`
always yields a mapping that maps `b` to `v`; and when `a` previously held
a non-mapping value, that value is replaced by exactly the mapping
`\x7bb: v\x7d`. -/
theorem set_nested_roundtrip (d : Doc) (v : YVal) :
    (∃ m, ylookup "a".toList (set_nested_value d "a.b".toList v) = some (.dict m) ∧
        ylookup "b".toList m = some v) ∧
    (∀ s, ylookup "a".toList d = some s → (∀ m, s ≠ YVal.dict m) →
        ylookup "a".toList (set_nested_value d "a.b".toList v) =
          some (.dict [("b".toList, v)])) := by
  have hsplit : set_nested_value d "a.b".toList v =
      setKey d "a".toList (.dict (setKey (dictUnder "a".toList d) "b".toList v)) := rfl
  constructor
  · refine ⟨setKey (dictUnder "a".toList d) "b".toList v, ?_, ?_⟩
    · rw [hsplit, ylookup_setKey_self]
    · exact ylookup_setKey_self _ _ _
  · intro s hs hnd
    have hu : dictUnder "a".toList d = [] := by
      rw [dictUnder, hs]
      cases s with
      | dict m => exact absurd rfl (hnd m)
      | str s2 => rfl
      | bool b => rfl
      | null => rfl
    rw [hsplit, hu, ylookup_setKey_self]
    rfl

/-- C7 witness: a document where `a` holds the scalar string `"z"`. -/
theorem set_nested_roundtrip_witness :
    (∃ m, ylookup "a".toList
        (set_nested_value [("a".toList, YVal.str "z".toList)] "a.b".toList (YVal.bool true)) =
          some (.dict m) ∧ ylookup "b".toList m = some (YVal.bool true)) ∧
    ylookup "a".toList
        (set_nested_value [("a".toList, YVal.str "z".toList)] "a.b".toList (YVal.bool true)) =
      some (.dict [("b".toList, YVal.bool true)]) := by
  have h := set_nested_roundtrip [("a".toList, YVal.str "z".toList)] (YVal.bool true)
  refine ⟨h.1, h.2 (YVal.str "z".toList) rfl ?_⟩
  intro m hm
  cases hm

def jsonXStr : Str := "\x7b\"x\": 1\x7d".toList

/-- The object of C1's failing input: its attribute `a` is an object whose
own attribute `a` is a JSON-looking string. -/
def objC1 : PyVal := .obj [("a".toList, .obj [("a".toList, .str jsonXStr)])]

/-- C1: REFUTED by the code.  On the path `a.a`, whose final segment name
repeats an earlier one, `parts.index(part)` returns the index of the
FIRST occurrence, so the guard `index < len(parts) - 1` also holds for
the final segment and its JSON-looking string value IS parsed: the call
returns the parsed mapping, not the raw string.  This contradicts the
code's own inline comment ("if ... we have more parts to traverse"). -/
theorem gnv_repeated_final_segment_parses_json :
    get_nested_value objC1 "a.a".toList = .ok (.dict [("x".toList, .int 1)]) ∧
    get_nested_value objC1 "a.a".toList ≠ .ok (.str jsonXStr) := by
  constructor
  · rfl
  · intro h
    rw [show get_nested_value objC1 "a.a".toList =
        Except.ok (PyVal.dict [("x".toList, .int 1)]) from rfl] at h
    simp at h

def jsonBStr : Str := "\x7b\"b\": 5\x7d".toList

/-- The object of C8's inputs: attribute `a` holds the JSON string
`'\x7b"b": 5\x7d'`. -/
def objC8 : PyVal := .obj [("a".toList, .str jsonBStr)]

/-- C8: REFUTED by the code.  On path `a.b` the JSON string is parsed
into a dict, but the next step uses `getattr`, which raises
`AttributeError` on a dict — the call never returns `5`, contradicting
the docstring's "parse it before continuing".  On path `a` alone the raw
string is returned (that half of the claim holds). -/
theorem gnv_json_string_traversal_raises :
    get_nested_value objC8 "a.b".toList = .error () ∧
    get_nested_value objC8 "a".toList = .ok (.str jsonBStr) := ⟨rfl, rfl⟩

/-- A config whose `columns` value is explicitly configured and equal to
the default field list, with no `column-names` configured. -/
def docC4 : Doc := [(keyColumns, .str "id,name".toList)]

/-- C4: REFUTED by the code.  With `columns` explicitly configured to
`"id,name"` the resolved field list equals the default field list exactly,
yet `column_names` returns the field list (`["id", "name"]`), not the
default display names: the code branches on whether the `columns` KEY is
absent (`is None`), not on whether the resolved fields equal the
defaults. -/
theorem column_names_default_equality_counterexample :
    repoColumns docC4 = .ok DEFAULT_REPO_FIELDS ∧
    repoColumnNames docC4 = .ok ["id".toList, "name".toList] ∧
    repoColumnNames docC4 ≠ .ok DEFAULT_REPO_COLUMN_NAMES := by
  refine ⟨rfl, rfl, ?_⟩
  intro h
  rw [show repoColumnNames docC4 = .ok ["id".toList, "name".toList] from rfl] at h
  simp [DEFAULT_REPO_COLUMN_NAMES] at h

/-- C4 amended: when no column names are configured (the `column-names`
value is falsy), the resolver returns the default display names exactly
when `dict.get("columns")` is `None` — the `columns` key absent from the
config or stored as `null`; in every other case — including `columns`
explicitly configured to a value that resolves to the default field list
— it returns the resolved field list itself as the display names. -/
theorem column_names_unconfigured_resolution (d : Doc) (cols : List Str)
    (hval : truthyOpt (ylookup keyColumnNames d) = false)
    (hcols : repoColumns d = .ok cols) :
    repoColumnNames d =
      .ok (if pyGetIsNone (ylookup keyColumns d) then DEFAULT_REPO_COLUMN_NAMES
        else cols) := by
  unfold repoColumnNames
  simp only [hcols, hval, Bool.false_eq_true, if_false]
  by_cases hn : pyGetIsNone (ylookup keyColumns d) = true <;> simp [hn]

/-- C4 witness: at `docC4` the explicitly configured columns resolve to
the default field list yet the field names are used as headers; at a
config whose `columns` key is stored as `null`, `dict.get` is `None` and
the default display names are used. -/
theorem column_names_unconfigured_resolution_witness :
    truthyOpt (ylookup keyColumnNames docC4) = false ∧
    repoColumns docC4 = .ok ["id".toList, "name".toList] ∧
    repoColumnNames docC4 = .ok ["id".toList, "name".toList] ∧
    repoColumnNames [(keyColumns, YVal.null)] = .ok DEFAULT_REPO_COLUMN_NAMES :=
  ⟨rfl, rfl, by
    have h := column_names_unconfigured_resolution docC4 ["id".toList, "name".toList] rfl rfl
    simpa using h, by
    have h := column_names_unconfigured_resolution [(keyColumns, YVal.null)]
      DEFAULT_REPO_FIELDS rfl rfl
    simpa using h⟩

/-- A config with two columns but three column names. -/
def docC2 : Doc :=
  [(keyColumns, .str "name,web_url".toList),
   (keyColumnNames, .str "Repository,URL,Extra".toList)]

/-- C2: REFUTED by the code.  On a counts mismatch the listing command
does NOT fall back to field names as headers: `column_names` raises
`typer.Exit(code=1)` (after echoing both counts) and `repo list` aborts —
the repository's own test `test_list_repos_column_names_mismatch` asserts
exit code 1. -/
theorem repo_list_mismatch_counterexample :
    repo_list_headers docC2 = .error (.mismatch 3 2) ∧
    repo_list_headers docC2 ≠
      .ok (["name".toList, "web_url".toList], ["name".toList, "web_url".toList]) := by
  refine ⟨rfl, ?_⟩
  intro h
  rw [show repo_list_headers docC2 = .error (.mismatch 3 2) from rfl] at h
  simp at h

/-- C2 amended: when column names are configured and their count differs
from the count of configured columns, `column_names` surfaces a
descriptive error naming both counts and exits with code 1, and the
listing command (`repo list`, with or without its interactive `--open`
flow) aborts identically — there is no fallback-with-warning call site;
the severity does not diverge. -/
theorem column_names_mismatch_aborts (d : Doc) (s : Str) (cols : List Str)
    (hv : ylookup keyColumnNames d = some (.str s))
    (hs : s.isEmpty = false)
    (hcols : repoColumns d = .ok cols)
    (hlen : (splitCsvStrip s).length ≠ cols.length) :
    repoColumnNames d = .error (.mismatch (splitCsvStrip s).length cols.length) ∧
    repo_list_headers d = .error (.mismatch (splitCsvStrip s).length cols.length) := by
  have h1 : repoColumnNames d =
      .error (.mismatch (splitCsvStrip s).length cols.length) := by
    unfold repoColumnNames
    rw [hcols, hv]
    simp [truthyOpt, pyTruthy, hs, hlen]
  refine ⟨h1, ?_⟩
  unfold repo_list_headers
  rw [hcols, h1]

/-- C2 witness: the two-columns/three-names config aborts with an error
naming both counts. -/
theorem column_names_mismatch_aborts_witness :
    repoColumnNames docC2 = .error (.mismatch 3 2) ∧
    repo_list_headers docC2 = .error (.mismatch 3 2) :=
  column_names_mismatch_aborts docC2 "Repository,URL,Extra".toList
    ["name".toList, "web_url".toList] rfl rfl rfl (by decide)

/-- A config whose `open` key is explicitly stored as YAML `null`. -/
def docC10 : Doc := [(keyOpen, YVal.null)]

/-- C10: REFUTED by the code.  When the `open` key is present but holds
YAML `null`, `dict.get` returns Python `None`, the `is None` check fires
and the accessor returns `True` — but the truthiness coercion of the
stored value (`bool(None)`) is `False`. -/
theorem repo_open_null_counterexample :
    ylookup keyOpen docC10 = some YVal.null ∧
    repoOpen docC10 = true ∧
    pyTruthy YVal.null = false := ⟨rfl, rfl, rfl⟩

/-- C10 amended: the `repo.open` accessor returns `True` when the key is
absent OR when the stored value is `null` (both make `dict.get` return
`None`), and otherwise returns the truthiness coercion of the stored
value. -/
theorem repo_open_resolution (d : Doc) :
    (ylookup keyOpen d = none → repoOpen d = true) ∧
    (ylookup keyOpen d = some YVal.null → repoOpen d = true) ∧
    (∀ v, ylookup keyOpen d = some v → v ≠ YVal.null → repoOpen d = pyTruthy v) := by
  refine ⟨?_, ?_, ?_⟩
  · intro h; unfold repoOpen; rw [h]
  · intro h; unfold repoOpen; rw [h]
  · intro v h hne
    unfold repoOpen
    rw [h]
    cases v with
    | null => exact absurd rfl hne
    | str s => rfl
    | bool b => rfl
    | dict m => rfl

/-- C10 witness: a stored `false` is coerced to `False`, and a stored
`null` yields `True`. -/
theorem repo_open_resolution_witness :
    repoOpen [(keyOpen, YVal.bool false)] = pyTruthy (YVal.bool false) ∧
    repoOpen docC10 = true :=
  ⟨(repo_open_resolution [(keyOpen, YVal.bool false)]).2.2 (YVal.bool false) rfl
      (by intro h; cases h),
   (repo_open_resolution docC10).2.1 rfl⟩

/-- C5: REFUTED by the code.  An empty input line is not special-cased:
`int("")` raises `ValueError`, the selector echoes
`Error: Invalid number` and exits with code 1 — not a successful
no-op. -/
theorem open_prompt_empty_counterexample :
    open_prompt ["u1".toList, "u2".toList] "".toList = .error .invalidNumber := rfl

/-- C5 amended: for every displayed repository list, an empty input line
(bare newline) to the interactive selector fails integer parsing, reports
`Error: Invalid number` and exits with code 1; no URL-open action is
performed. -/
theorem open_prompt_empty_input_errors (webUrls : List Str) :
    open_prompt webUrls "".toList = .error .invalidNumber := rfl

/-- C9: providing an invalid `--repo.open` literal, or providing no
option at all, makes `config set` exit with code 1 before `write_config`
is reached, leaving the on-disk document exactly as it was. -/
theorem config_set_atomic (d : Doc) (o : SetOpts) :
    (∀ v, o.repo_open = some v → pyLower v ≠ "true".toList → pyLower v ≠ "false".toList →
        config_set o d = .error .invalidOpen ∧ config_set_disk o d = d) ∧
    (o.project = none → o.org = none → o.server = none → o.repo_columns = none →
        o.repo_column_names = none → o.repo_open = none →
        config_set o d = .error .noOptions ∧ config_set_disk o d = d) := by
  constructor
  · intro v hv h1 h2
    have hcs : config_set o d = .error .invalidOpen := by
      simp only [config_set, hv]
      rw [if_neg h1, if_neg h2]
    exact ⟨hcs, by unfold config_set_disk; rw [hcs]⟩
  · intro h1 h2 h3 h4 h5 h6
    have hcs : config_set o d = .error .noOptions := by
      unfold config_set
      rw [h6]
      simp [h1, h2, h3, h4, h5]
    exact ⟨hcs, by unfold config_set_disk; rw [hcs]⟩

def optsInvalidOpen : SetOpts := SetOpts.mk none none none none none (some "maybe".toList)

def optsAllNone : SetOpts := SetOpts.mk none none none none none none

def docOrg : Doc := [(keyOrg, .str "O".toList)]

/-- C9 witness: `--repo.open maybe` and the empty option set both error
out with the document untouched. -/
theorem config_set_atomic_witness :
    (config_set optsInvalidOpen docOrg = .error .invalidOpen ∧
      config_set_disk optsInvalidOpen docOrg = docOrg) ∧
    (config_set optsAllNone docOrg = .error .noOptions ∧
      config_set_disk optsAllNone docOrg = docOrg) :=
  ⟨(config_set_atomic docOrg optsInvalidOpen).1 "maybe".toList rfl (by decide) (by decide),
   (config_set_atomic docOrg optsAllNone).2 rfl rfl rfl rfl rfl rfl⟩

theorem snv_repo_columns (d : Doc) (v : YVal) :
    set_nested_value d "repo.columns".toList v =
      setKey d keyRepo (.dict (setKey (dictUnder keyRepo d) keyColumns v)) := rfl

theorem snv_repo_column_names (d : Doc) (v : YVal) :
    set_nested_value d "repo.column-names".toList v =
      setKey d keyRepo (.dict (setKey (dictUnder keyRepo d) keyColumnNames v)) := rfl

theorem snv_repo_open (d : Doc) (v : YVal) :
    set_nested_value d "repo.open".toList v =
      setKey d keyRepo (.dict (setKey (dictUnder keyRepo d) keyOpen v)) := rfl

theorem dictUnder_setKey_self (d : Doc) (k : Str) (m : Doc) :
    dictUnder k (setKey d k (.dict m)) = m := by
  unfold dictUnder
  rw [ylookup_setKey_self]

theorem dictUnder_setKey_ne (d : Doc) (k kq : Str) (v : YVal) (h : kq ≠ k) :
    dictUnder kq (setKey d k v) = dictUnder kq d := by
  unfold dictUnder
  rw [ylookup_setKey_ne _ _ _ _ h]

/-- The document after the three top-level updates of `config_set`
(`d3` in the let chain). -/
def stage3 (o : SetOpts) (d : Doc) : Doc :=
  applyTop (applyTop (applyTop d keyProject o.project) keyOrg o.org) keyServer o.server

/-- The document after additionally applying `--repo.columns` (`d4`). -/
def stage4 (o : SetOpts) (d : Doc) : Doc :=
  match o.repo_columns with
  | none => stage3 o d
  | some v => set_nested_value (stage3 o d) "repo.columns".toList (.str v)

/-- The document after additionally applying `--repo.column-names`
(`d5`). -/
def stage5 (o : SetOpts) (d : Doc) : Doc :=
  match o.repo_column_names with
  | none => stage4 o d
  | some v => set_nested_value (stage4 o d) "repo.column-names".toList (.str v)

/-- The document written by a successful `config_set`: `d5` plus the
parsed `--repo.open` boolean when that option was provided. -/
def stage6 (o : SetOpts) (d : Doc) : Doc :=
  match o.repo_open with
  | none => stage5 o d
  | some v => set_nested_value (stage5 o d) "repo.open".toList (.bool (pyLower v == "true".toList))

theorem config_set_ok_eq (o : SetOpts) (d d' : Doc) (h : config_set o d = .ok d') :
    d' = stage6 o d := by
  cases hro : o.repo_open with
  | none =>
    simp only [config_set, hro] at h
    by_cases hn : (o.project.isNone && o.org.isNone && o.server.isNone &&
        o.repo_columns.isNone && o.repo_column_names.isNone) = true
    · rw [if_pos hn] at h
      cases h
    · rw [if_neg hn] at h
      cases h
      simp only [stage6, hro]
      rfl
  | some v =>
    simp only [config_set, hro] at h
    by_cases ht : pyLower v = "true".toList
    · rw [if_pos ht] at h
      cases h
      have hb : (pyLower v == "true".toList) = true := beq_iff_eq.mpr ht
      simp only [stage6, hro, hb]
      rfl
    · rw [if_neg ht] at h
      by_cases hf : pyLower v = "false".toList
      · rw [if_pos hf] at h
        cases h
        have hb : (pyLower v == "true".toList) = false := by
          rw [beq_eq_false_iff_ne]
          exact ht
        simp only [stage6, hro, hb]
        rfl
      · rw [if_neg hf] at h
        cases h

/-- Reading the nested key `j` under the `repo` mapping of a document (an
absent or non-mapping `repo` value has no nested keys). -/
def rlook (j : Str) (d : Doc) : Option YVal := ylookup j (dictUnder keyRepo d)

theorem ylookup_applyTop_ne (d : Doc) (k kq : Str) (w : Option Str) (h : kq ≠ k) :
    ylookup kq (applyTop d k w) = ylookup kq d := by
  cases w with
  | none => rfl
  | some v => exact ylookup_setKey_ne d k kq (.str v) h

theorem stage3_ne (o : SetOpts) (d : Doc) (kq : Str) (h1 : kq ≠ keyProject)
    (h2 : kq ≠ keyOrg) (h3 : kq ≠ keyServer) :
    ylookup kq (stage3 o d) = ylookup kq d := by
  unfold stage3
  rw [ylookup_applyTop_ne _ _ _ _ h3, ylookup_applyTop_ne _ _ _ _ h2,
    ylookup_applyTop_ne _ _ _ _ h1]

theorem stage3_project (o : SetOpts) (d : Doc) :
    ylookup keyProject (stage3 o d) =
      (match o.project with
       | some v => some (.str v)
       | none => ylookup keyProject d) := by
  unfold stage3
  rw [ylookup_applyTop_ne _ _ _ _ (by decide : keyProject ≠ keyServer),
    ylookup_applyTop_ne _ _ _ _ (by decide : keyProject ≠ keyOrg)]
  cases o.project with
  | none => rfl
  | some v => exact ylookup_setKey_self _ _ _

theorem stage3_org (o : SetOpts) (d : Doc) :
    ylookup keyOrg (stage3 o d) =
      (match o.org with
       | some v => some (.str v)
       | none => ylookup keyOrg d) := by
  unfold stage3
  rw [ylookup_applyTop_ne _ _ _ _ (by decide : keyOrg ≠ keyServer)]
  cases o.org with
  | none => exact ylookup_applyTop_ne _ _ _ _ (by decide : keyOrg ≠ keyProject)
  | some v => exact ylookup_setKey_self _ _ _

theorem applyTop_none (d : Doc) (k : Str) : applyTop d k none = d := rfl

theorem stage3_server (o : SetOpts) (d : Doc) :
    ylookup keyServer (stage3 o d) =
      (match o.server with
       | some v => some (.str v)
       | none => ylookup keyServer d) := by
  unfold stage3
  cases o.server with
  | none =>
    rw [applyTop_none, ylookup_applyTop_ne _ _ _ _ (by decide : keyServer ≠ keyOrg)]
    exact ylookup_applyTop_ne _ _ _ _ (by decide : keyServer ≠ keyProject)
  | some v => exact ylookup_setKey_self _ _ _

theorem dictUnder_stage3 (o : SetOpts) (d : Doc) :
    dictUnder keyRepo (stage3 o d) = dictUnder keyRepo d := by
  unfold dictUnder
  rw [stage3_ne o d keyRepo (by decide) (by decide) (by decide)]

theorem rlook_stage3 (o : SetOpts) (d : Doc) (j : Str) :
    rlook j (stage3 o d) = rlook j d := by
  unfold rlook
  rw [dictUnder_stage3]

theorem stage4_rlook (o : SetOpts) (d : Doc) (j : Str) :
    rlook j (stage4 o d) =
      (match o.repo_columns with
       | some v => if j = keyColumns then some (.str v) else rlook j d
       | none => rlook j d) := by
  cases hc : o.repo_columns with
  | none =>
    simp only [stage4, hc]
    exact rlook_stage3 o d j
  | some v =>
    simp only [stage4, hc, snv_repo_columns]
    unfold rlook
    rw [dictUnder_setKey_self]
    by_cases hj : j = keyColumns
    · subst hj
      rw [ylookup_setKey_self, if_pos rfl]
    · rw [ylookup_setKey_ne _ _ _ _ hj, if_neg hj, dictUnder_stage3]

theorem stage5_rlook (o : SetOpts) (d : Doc) (j : Str) :
    rlook j (stage5 o d) =
      (match o.repo_column_names with
       | some v => if j = keyColumnNames then some (.str v) else rlook j (stage4 o d)
       | none => rlook j (stage4 o d)) := by
  cases hn : o.repo_column_names with
  | none => simp only [stage5, hn]
  | some v =>
    simp only [stage5, hn, snv_repo_column_names]
    unfold rlook
    rw [dictUnder_setKey_self]
    by_cases hj : j = keyColumnNames
    · subst hj
      rw [ylookup_setKey_self, if_pos rfl]
    · rw [ylookup_setKey_ne _ _ _ _ hj, if_neg hj]

theorem stage6_rlook (o : SetOpts) (d : Doc) (j : Str) :
    rlook j (stage6 o d) =
      (match o.repo_open with
       | some v => if j = keyOpen then some (.bool (pyLower v == "true".toList))
                   else rlook j (stage5 o d)
       | none => rlook j (stage5 o d)) := by
  cases ho : o.repo_open with
  | none => simp only [stage6, ho]
  | some v =>
    simp only [stage6, ho, snv_repo_open]
    unfold rlook
    rw [dictUnder_setKey_self]
    by_cases hj : j = keyOpen
    · subst hj
      rw [ylookup_setKey_self, if_pos rfl]
    · rw [ylookup_setKey_ne _ _ _ _ hj, if_neg hj]

theorem stage6_top_ne (o : SetOpts) (d : Doc) (kq : Str) (h1 : kq ≠ keyProject)
    (h2 : kq ≠ keyOrg) (h3 : kq ≠ keyServer) (h4 : kq ≠ keyRepo) :
    ylookup kq (stage6 o d) = ylookup kq d := by
  have hs4 : ylookup kq (stage4 o d) = ylookup kq d := by
    cases hc : o.repo_columns with
    | none =>
      simp only [stage4, hc]
      exact stage3_ne o d kq h1 h2 h3
    | some v =>
      simp only [stage4, hc, snv_repo_columns]
      rw [ylookup_setKey_ne _ _ _ _ h4]
      exact stage3_ne o d kq h1 h2 h3
  have hs5 : ylookup kq (stage5 o d) = ylookup kq d := by
    cases hn : o.repo_column_names with
    | none => simp only [stage5, hn]; exact hs4
    | some v =>
      simp only [stage5, hn, snv_repo_column_names]
      rw [ylookup_setKey_ne _ _ _ _ h4]
      exact hs4
  cases ho : o.repo_open with
  | none => simp only [stage6, ho]; exact hs5
  | some v =>
    simp only [stage6, ho, snv_repo_open]
    rw [ylookup_setKey_ne _ _ _ _ h4]
    exact hs5

theorem stage6_top_key (o : SetOpts) (d : Doc) (kq : Str) (h1 : kq ≠ keyRepo) :
    ylookup kq (stage6 o d) = ylookup kq (stage3 o d) := by
  have hs4 : ylookup kq (stage4 o d) = ylookup kq (stage3 o d) := by
    cases hc : o.repo_columns with
    | none => simp only [stage4, hc]
    | some v =>
      simp only [stage4, hc, snv_repo_columns]
      rw [ylookup_setKey_ne _ _ _ _ h1]
  have hs5 : ylookup kq (stage5 o d) = ylookup kq (stage3 o d) := by
    cases hn : o.repo_column_names with
    | none => simp only [stage5, hn]; exact hs4
    | some v =>
      simp only [stage5, hn, snv_repo_column_names]
      rw [ylookup_setKey_ne _ _ _ _ h1]
      exact hs4
  cases ho : o.repo_open with
  | none => simp only [stage6, ho]; exact hs5
  | some v =>
    simp only [stage6, ho, snv_repo_open]
    rw [ylookup_setKey_ne _ _ _ _ h1]
    exact hs5

theorem stage6_repo_none (o : SetOpts) (d : Doc) (hc : o.repo_columns = none)
    (hn : o.repo_column_names = none) (ho : o.repo_open = none) :
    ylookup keyRepo (stage6 o d) = ylookup keyRepo d := by
  simp only [stage6, ho, stage5, hn, stage4, hc]
  exact stage3_ne o d keyRepo (by decide) (by decide) (by decide)

theorem stage6_repo_dict (o : SetOpts) (d : Doc)
    (h : o.repo_columns ≠ none ∨ o.repo_column_names ≠ none ∨ o.repo_open ≠ none) :
    ylookup keyRepo (stage6 o d) = some (.dict (dictUnder keyRepo (stage6 o d))) := by
  cases ho : o.repo_open with
  | some v =>
    simp only [stage6, ho, snv_repo_open]
    rw [ylookup_setKey_self, dictUnder_setKey_self]
  | none =>
    cases hn : o.repo_column_names with
    | some v =>
      simp only [stage6, ho, stage5, hn, snv_repo_column_names]
      rw [ylookup_setKey_self, dictUnder_setKey_self]
    | none =>
      cases hc : o.repo_columns with
      | some v =>
        simp only [stage6, ho, stage5, hn, stage4, hc, snv_repo_columns]
        rw [ylookup_setKey_self, dictUnder_setKey_self]
      | none => simp [hc, hn, ho] at h

theorem stage6_rlook_ne (o : SetOpts) (d : Doc) (j : Str) (hj1 : j ≠ keyColumns)
    (hj2 : j ≠ keyColumnNames) (hj3 : j ≠ keyOpen) :
    rlook j (stage6 o d) = rlook j d := by
  have h4 : rlook j (stage4 o d) = rlook j d := by
    rw [stage4_rlook]
    cases hc : o.repo_columns with
    | none => rfl
    | some v =>
      show (if j = keyColumns then some (YVal.str v) else rlook j d) = rlook j d
      rw [if_neg hj1]
  have h5 : rlook j (stage5 o d) = rlook j d := by
    rw [stage5_rlook]
    cases hn : o.repo_column_names with
    | none => exact h4
    | some v =>
      show (if j = keyColumnNames then some (YVal.str v) else rlook j (stage4 o d)) = rlook j d
      rw [if_neg hj2]
      exact h4
  rw [stage6_rlook]
  cases ho : o.repo_open with
  | none => exact h5
  | some v =>
    show (if j = keyOpen then some (YVal.bool (pyLower v == "true".toList))
        else rlook j (stage5 o d)) = rlook j d
    rw [if_neg hj3]
    exact h5

theorem stage6_rlook_columns (o : SetOpts) (d : Doc) :
    rlook keyColumns (stage6 o d) =
      (match o.repo_columns with
       | some v => some (.str v)
       | none => rlook keyColumns d) := by
  have h4 : rlook keyColumns (stage4 o d) =
      (match o.repo_columns with
       | some v => some (.str v)
       | none => rlook keyColumns d) := by
    rw [stage4_rlook]
    cases hc : o.repo_columns with
    | none => rfl
    | some v =>
      show (if keyColumns = keyColumns then some (YVal.str v) else rlook keyColumns d) =
        some (YVal.str v)
      rw [if_pos rfl]
  have h5 : rlook keyColumns (stage5 o d) = rlook keyColumns (stage4 o d) := by
    rw [stage5_rlook]
    cases hn : o.repo_column_names with
    | none => rfl
    | some v =>
      show (if keyColumns = keyColumnNames then some (YVal.str v)
          else rlook keyColumns (stage4 o d)) = rlook keyColumns (stage4 o d)
      rw [if_neg (by decide)]
  rw [stage6_rlook]
  cases ho : o.repo_open with
  | none => rw [h5]; exact h4
  | some v =>
    show (if keyColumns = keyOpen then some (YVal.bool (pyLower v == "true".toList))
        else rlook keyColumns (stage5 o d)) = _
    rw [if_neg (by decide), h5]
    exact h4

theorem stage6_rlook_column_names (o : SetOpts) (d : Doc) :
    rlook keyColumnNames (stage6 o d) =
      (match o.repo_column_names with
       | some v => some (.str v)
       | none => rlook keyColumnNames d) := by
  have h4 : rlook keyColumnNames (stage4 o d) = rlook keyColumnNames d := by
    rw [stage4_rlook]
    cases hc : o.repo_columns with
    | none => rfl
    | some v =>
      show (if keyColumnNames = keyColumns then some (YVal.str v)
          else rlook keyColumnNames d) = rlook keyColumnNames d
      rw [if_neg (by decide)]
  have h5 : rlook keyColumnNames (stage5 o d) =
      (match o.repo_column_names with
       | some v => some (.str v)
       | none => rlook keyColumnNames d) := by
    rw [stage5_rlook]
    cases hn : o.repo_column_names with
    | none => exact h4
    | some v =>
      show (if keyColumnNames = keyColumnNames then some (YVal.str v)
          else rlook keyColumnNames (stage4 o d)) = some (YVal.str v)
      rw [if_pos rfl]
  rw [stage6_rlook]
  cases ho : o.repo_open with
  | none => exact h5
  | some v =>
    show (if keyColumnNames = keyOpen then some (YVal.bool (pyLower v == "true".toList))
        else rlook keyColumnNames (stage5 o d)) = _
    rw [if_neg (by decide)]
    exact h5

theorem stage6_rlook_open (o : SetOpts) (d : Doc) :
    rlook keyOpen (stage6 o d) =
      (match o.repo_open with
       | some v => some (.bool (pyLower v == "true".toList))
       | none => rlook keyOpen d) := by
  have h4 : rlook keyOpen (stage4 o d) = rlook keyOpen d := by
    rw [stage4_rlook]
    cases hc : o.repo_columns with
    | none => rfl
    | some v =>
      show (if keyOpen = keyColumns then some (YVal.str v) else rlook keyOpen d) =
        rlook keyOpen d
      rw [if_neg (by decide)]
  have h5 : rlook keyOpen (stage5 o d) = rlook keyOpen d := by
    rw [stage5_rlook]
    cases hn : o.repo_column_names with
    | none => exact h4
    | some v =>
      show (if keyOpen = keyColumnNames then some (YVal.str v)
          else rlook keyOpen (stage4 o d)) = rlook keyOpen d
      rw [if_neg (by decide)]
      exact h4
  rw [stage6_rlook]
  cases ho : o.repo_open with
  | none => exact h5
  | some v =>
    show (if keyOpen = keyOpen then some (YVal.bool (pyLower v == "true".toList))
        else rlook keyOpen (stage5 o d)) = some (YVal.bool (pyLower v == "true".toList))
    rw [if_pos rfl]

theorem stage3_idem_applied (o : SetOpts) (d : Doc) :
    stage3 o (stage6 o d) = stage6 o d := by
  have e1 : applyTop (stage6 o d) keyProject o.project = stage6 o d := by
    cases hp : o.project with
    | none => rfl
    | some v =>
      refine setKey_id _ _ _ ?_
      rw [stage6_top_key o d keyProject (by decide), stage3_project, hp]
  have e2 : applyTop (stage6 o d) keyOrg o.org = stage6 o d := by
    cases hg : o.org with
    | none => rfl
    | some v =>
      refine setKey_id _ _ _ ?_
      rw [stage6_top_key o d keyOrg (by decide), stage3_org, hg]
  have e3 : applyTop (stage6 o d) keyServer o.server = stage6 o d := by
    cases hs : o.server with
    | none => rfl
    | some v =>
      refine setKey_id _ _ _ ?_
      rw [stage6_top_key o d keyServer (by decide), stage3_server, hs]
  unfold stage3
  rw [e1, e2, e3]

theorem stage6_fixed (o : SetOpts) (D : Doc)
    (hs3 : stage3 o D = D)
    (hdict : (o.repo_columns ≠ none ∨ o.repo_column_names ≠ none ∨ o.repo_open ≠ none) →
        ylookup keyRepo D = some (.dict (dictUnder keyRepo D)))
    (hcol : ∀ v, o.repo_columns = some v → rlook keyColumns D = some (.str v))
    (hnames : ∀ v, o.repo_column_names = some v → rlook keyColumnNames D = some (.str v))
    (hopen : ∀ v, o.repo_open = some v →
        rlook keyOpen D = some (.bool (pyLower v == "true".toList))) :
    stage6 o D = D := by
  have hs4 : stage4 o D = D := by
    cases hc : o.repo_columns with
    | none => simp only [stage4, hc]; exact hs3
    | some v =>
      simp only [stage4, hc, snv_repo_columns, hs3]
      rw [setKey_id _ _ _ (hcol v hc)]
      exact setKey_id _ _ _ (hdict (Or.inl (by simp [hc])))
  have hs5 : stage5 o D = D := by
    cases hn : o.repo_column_names with
    | none => simp only [stage5, hn]; exact hs4
    | some v =>
      simp only [stage5, hn, snv_repo_column_names, hs4]
      rw [setKey_id _ _ _ (hnames v hn)]
      exact setKey_id _ _ _ (hdict (Or.inr (Or.inl (by simp [hn]))))
  cases ho : o.repo_open with
  | none => simp only [stage6, ho]; exact hs5
  | some v =>
    simp only [stage6, ho, snv_repo_open, hs5]
    rw [setKey_id _ _ _ (hopen v ho)]
    exact setKey_id _ _ _ (hdict (Or.inr (Or.inr (by simp [ho]))))

theorem stage6_idem (o : SetOpts) (d : Doc) :
    stage6 o (stage6 o d) = stage6 o d := by
  refine stage6_fixed o (stage6 o d) (stage3_idem_applied o d) (stage6_repo_dict o d)
    ?_ ?_ ?_
  · intro v hc
    rw [stage6_rlook_columns, hc]
  · intro v hn
    rw [stage6_rlook_column_names, hn]
  · intro v ho
    rw [stage6_rlook_open, ho]

theorem config_set_ok_of_ok (o : SetOpts) (d e : Doc) (h : config_set o d = .ok e)
    (d3 : Doc) : config_set o d3 = .ok (stage6 o d3) := by
  cases hro : o.repo_open with
  | none =>
    simp only [config_set, hro] at h ⊢
    by_cases hn : (o.project.isNone && o.org.isNone && o.server.isNone &&
        o.repo_columns.isNone && o.repo_column_names.isNone) = true
    · rw [if_pos hn] at h
      cases h
    · rw [if_neg hn]
      simp only [stage6, hro]
      rfl
  | some v =>
    simp only [config_set, hro] at h ⊢
    by_cases ht : pyLower v = "true".toList
    · rw [if_pos ht]
      have hb : (pyLower v == "true".toList) = true := beq_iff_eq.mpr ht
      simp only [stage6, hro, hb]
      rfl
    · rw [if_neg ht] at h ⊢
      by_cases hf : pyLower v = "false".toList
      · rw [if_pos hf]
        have hb : (pyLower v == "true".toList) = false := by
          rw [beq_eq_false_iff_ne]
          exact ht
        simp only [stage6, hro, hb]
        rfl
      · rw [if_neg hf] at h
        cases h

/-- C6 amended: for every existing document `D` and every update `U`
accepted by `config set`, the written document preserves verbatim every
top-level key other than the option-touched ones, preserves every nested
`repo.*` key not named by `U` (read through the `repo` mapping; a
non-mapping `repo` value has no nested keys and is replaced by a fresh
mapping whenever a `repo.*` key is set — the documented destructive
`setNested` behavior, which is what the bare claim misses), overwrites
exactly the keys present in `U` with the provided values, and re-applying
the same `U` leaves the document unchanged. -/
theorem config_set_frame (d : Doc) (o : SetOpts) (d2 : Doc)
    (hok : config_set o d = .ok d2) :
    (∀ k, k ≠ keyProject → k ≠ keyOrg → k ≠ keyServer → k ≠ keyRepo →
        ylookup k d2 = ylookup k d) ∧
    (ylookup keyProject d2 =
      match o.project with
      | some v => some (.str v)
      | none => ylookup keyProject d) ∧
    (ylookup keyOrg d2 =
      match o.org with
      | some v => some (.str v)
      | none => ylookup keyOrg d) ∧
    (ylookup keyServer d2 =
      match o.server with
      | some v => some (.str v)
      | none => ylookup keyServer d) ∧
    ((o.repo_columns = none ∧ o.repo_column_names = none ∧ o.repo_open = none) →
        ylookup keyRepo d2 = ylookup keyRepo d) ∧
    (∀ j, j ≠ keyColumns → j ≠ keyColumnNames → j ≠ keyOpen →
        rlook j d2 = rlook j d) ∧
    (o.repo_columns = none → rlook keyColumns d2 = rlook keyColumns d) ∧
    (o.repo_column_names = none → rlook keyColumnNames d2 = rlook keyColumnNames d) ∧
    (o.repo_open = none → rlook keyOpen d2 = rlook keyOpen d) ∧
    (∀ v, o.repo_columns = some v → rlook keyColumns d2 = some (.str v)) ∧
    (∀ v, o.repo_column_names = some v → rlook keyColumnNames d2 = some (.str v)) ∧
    (∀ v, o.repo_open = some v →
        rlook keyOpen d2 = some (.bool (pyLower v == "true".toList))) ∧
    ((o.repo_columns ≠ none ∨ o.repo_column_names ≠ none ∨ o.repo_open ≠ none) →
        ∃ m, ylookup keyRepo d2 = some (.dict m)) ∧
    config_set o d2 = .ok d2 := by
  have hd : d2 = stage6 o d := config_set_ok_eq o d d2 hok
  subst hd
  refine ⟨?_, ?_, ?_, ?_, ?_, ?_, ?_, ?_, ?_, ?_, ?_, ?_, ?_, ?_⟩
  · intro k h1 h2 h3 h4
    exact stage6_top_ne o d k h1 h2 h3 h4
  · rw [stage6_top_key o d keyProject (by decide)]
    exact stage3_project o d
  · rw [stage6_top_key o d keyOrg (by decide)]
    exact stage3_org o d
  · rw [stage6_top_key o d keyServer (by decide)]
    exact stage3_server o d
  · rintro ⟨hc, hn, ho⟩
    exact stage6_repo_none o d hc hn ho
  · intro j h1 h2 h3
    exact stage6_rlook_ne o d j h1 h2 h3
  · intro hc
    rw [stage6_rlook_columns, hc]
  · intro hn
    rw [stage6_rlook_column_names, hn]
  · intro ho
    rw [stage6_rlook_open, ho]
  · intro v hc
    rw [stage6_rlook_columns, hc]
  · intro v hn
    rw [stage6_rlook_column_names, hn]
  · intro v ho
    rw [stage6_rlook_open, ho]
  · intro hsome
    exact ⟨dictUnder keyRepo (stage6 o d), stage6_repo_dict o d hsome⟩
  · rw [config_set_ok_of_ok o d (stage6 o d) hok (stage6 o d), stage6_idem]

/-- A document whose `repo` key holds a scalar string. -/
def docScalarRepo : Doc := [(keyRepo, .str "x".toList)]

/-- The update setting only `--repo.open true`. -/
def optsOpenTrue : SetOpts := SetOpts.mk none none none none none (some "true".toList)

/-- C6: REFUTED as stated.  With `D = \x7brepo: "x"\x7d` and
`U = \x7brepo.open: true\x7d`, the key `repo` of `D` is not present in
`U` (whose only key is `repo.open`), yet its value is not preserved
verbatim: the scalar is destroyed and replaced by the fresh mapping
`\x7bopen: true\x7d`. -/
theorem config_set_scalar_repo_counterexample :
    config_set optsOpenTrue docScalarRepo =
      .ok [(keyRepo, .dict [(keyOpen, .bool true)])] ∧
    ylookup keyRepo docScalarRepo = some (.str "x".toList) ∧
    ylookup keyRepo [(keyRepo, YVal.dict [(keyOpen, YVal.bool true)])] ≠
      some (.str "x".toList) := by
  refine ⟨rfl, rfl, ?_⟩
  intro h
  rw [show ylookup keyRepo [(keyRepo, YVal.dict [(keyOpen, YVal.bool true)])] =
      some (YVal.dict [(keyOpen, YVal.bool true)]) from rfl] at h
  simp at h

/-- A well-formed document: `org` configured, `repo` a mapping holding
`columns`. -/
def dW : Doc :=
  [(keyOrg, .str "O".toList), (keyRepo, .dict [(keyColumns, .str "id".toList)])]

/-- The document written by `config set --repo.open true` on `dW`. -/
def dW2 : Doc :=
  [(keyOrg, .str "O".toList),
   (keyRepo, .dict [(keyColumns, .str "id".toList), (keyOpen, .bool true)])]

/-- C6 witness: on `dW`, setting `repo.open` preserves the `org` key and
the nested `repo.columns` key, stores the parsed boolean, and re-applying
the same update is a no-op. -/
theorem config_set_frame_witness :
    config_set optsOpenTrue dW = .ok dW2 ∧
    ylookup keyOrg dW2 = ylookup keyOrg dW ∧
    rlook keyColumns dW2 = rlook keyColumns dW ∧
    rlook keyOpen dW2 = some (.bool true) ∧
    config_set optsOpenTrue dW2 = .ok dW2 := by
  obtain ⟨p1, p2, p3, p4, p5, p6, p7, p8, p9, p10, p11, p12, p13, p14⟩ :=
    config_set_frame dW optsOpenTrue dW2 rfl
  refine ⟨rfl, p3, p7 rfl, ?_, p14⟩
  rw [p12 "true".toList rfl]
  rfl

theorem isPrefixOf_append (a b : Str) : a.isPrefixOf (a ++ b) = true := by
  rw [List.isPrefixOf_iff_prefix]
  exact List.prefix_append a b

theorem drop8 (x : Str) : ("https://".toList ++ x).drop 8 = x :=
  List.drop_left "https://".toList x

theorem splitAtFirst_eq (c : Char) (s : Str) : ∀ pre post,
    splitAtFirst c s = some (pre, post) → s = pre ++ c :: post ∧ c ∉ pre := by
  induction s with
  | nil => intro pre post h; cases h
  | cons x xs ih =>
    intro pre post h
    by_cases hx : x = c
    · subst hx
      simp only [splitAtFirst, if_pos rfl] at h
      injection h with h2
      injection h2 with h3 h4
      subst h3
      subst h4
      simp
    · simp only [splitAtFirst, if_neg hx] at h
      cases hs : splitAtFirst c xs with
      | none => rw [hs] at h; cases h
      | some p =>
        obtain ⟨p1, p2⟩ := p
        rw [hs] at h
        injection h with h2
        injection h2 with h3 h4
        subst h3
        obtain ⟨e1, e2⟩ := ih p1 p2 hs
        subst e1
        rw [← h4]
        refine ⟨by simp, ?_⟩
        intro hmem
        rcases List.mem_cons.mp hmem with h5 | h5
        · exact hx h5.symm
        · exact e2 h5

theorem splitAtFirst_append (c : Char) (a r : Str) (h : c ∉ a) :
    splitAtFirst c (a ++ c :: r) = some (a, r) := by
  induction a with
  | nil => simp [splitAtFirst]
  | cons x xs ih =>
    have hx : x ≠ c := fun hh => h (hh ▸ List.mem_cons_self x xs)
    have hxs : c ∉ xs := fun hh => h (List.mem_cons_of_mem x hh)
    show (if x = c then some ([], xs ++ c :: r)
      else match splitAtFirst c (xs ++ c :: r) with
        | some (pre, post) => some (x :: pre, post)
        | none => none) = some (x :: xs, r)
    rw [if_neg hx, ih hxs]

theorem splitAtFirst_none (c : Char) (s : Str) (h : c ∉ s) :
    splitAtFirst c s = none := by
  induction s with
  | nil => rfl
  | cons x xs ih =>
    have hx : x ≠ c := fun hh => h (hh ▸ List.mem_cons_self x xs)
    have hxs : c ∉ xs := fun hh => h (List.mem_cons_of_mem x hh)
    show (if x = c then some ([], xs)
      else match splitAtFirst c xs with
        | some (pre, post) => some (x :: pre, post)
        | none => none) = none
    rw [if_neg hx, ih hxs]

theorem segPat_append (a r : Str) (h : '/' ∉ a) (hne : a ≠ []) :
    segPat (a ++ '/' :: r) = some (a, r) := by
  unfold segPat
  rw [splitAtFirst_append '/' a r h]
  simp [hne]

theorem segPat_sound (s a r : Str) (h : segPat s = some (a, r)) :
    s = a ++ '/' :: r := by
  unfold segPat at h
  cases hs : splitAtFirst '/' s with
  | none => rw [hs] at h; cases h
  | some p =>
    obtain ⟨p1, p2⟩ := p
    rw [hs] at h
    by_cases hp : p1.isEmpty
    · simp [hp] at h
    · simp only [hp, Bool.false_eq_true, if_false] at h
      injection h with h2
      injection h2 with h3 h4
      subst h3
      subst h4
      exact (splitAtFirst_eq '/' s p1 p2 hs).1

theorem matchRepoTail_id (t : Str) (h1 : t ≠ []) (h2 : '/' ∉ t)
    (h3 : ∀ c ∈ t, ¬ isPySpace c = true)
    (hgit : ¬(4 < t.length ∧ t.drop (t.length - 4) = ".git".toList)) :
    matchRepoTail t = some t := by
  have he : t.isEmpty = false := by
    cases t with
    | nil => exact absurd rfl h1
    | cons x xs => rfl
  have ha : t.all isRepoChar = true := by
    rw [List.all_eq_true]
    intro c hc
    have hcne : ¬(c = '/') := fun hh => h2 (hh ▸ hc)
    have hcsp := h3 c hc
    simp [isRepoChar, hcne, hcsp]
  unfold matchRepoTail
  rw [he, ha]
  simp only [Bool.false_eq_true, if_false, if_true]
  unfold stripDotGit
  rw [if_neg hgit]

theorem gitMark_prefix (repo : Str) :
    "_git/".toList.isPrefixOf ('_' :: 'g' :: 'i' :: 't' :: '/' :: repo) = true :=
  isPrefixOf_append "_git/".toList repo

/-- The portion of a built repository URL after `https://`, in the
association used by the proofs below: server part, then the three
slash-separated segments. -/
def coreStr (org proj repo : Str) : Str :=
  "dev.azure.com".toList ++ '/' ::
    (org ++ '/' :: (proj ++ '/' :: ('_' :: 'g' :: 'i' :: 't' :: '/' :: repo)))

theorem matchCore_build (org proj repo : Str)
    (ho1 : org ≠ []) (ho2 : '/' ∉ org)
    (hp1 : proj ≠ []) (hp2 : '/' ∉ proj)
    (hmr : matchRepoTail repo = some repo) :
    matchCore (coreStr org proj repo) =
      some ("dev.azure.com".toList, org, proj, repo) := by
  simp only [coreStr, matchCore,
    segPat_append "dev.azure.com".toList _ (by decide) (by decide),
    segPat_append org _ ho2 ho1,
    segPat_append proj _ hp2 hp1,
    gitMark_prefix, if_true, List.drop_succ_cons, List.drop_zero, hmr]

theorem matchCore_count (s : Str) (q : Str × Str × Str × Str)
    (h : matchCore s = some q) : 4 ≤ s.count '/' := by
  unfold matchCore at h
  cases h1 : segPat s with
  | none => rw [h1] at h; simp at h
  | some p1 =>
    obtain ⟨a1, r1⟩ := p1
    simp only [h1] at h
    cases h2 : segPat r1 with
    | none => rw [h2] at h; simp at h
    | some p2 =>
      obtain ⟨a2, r2⟩ := p2
      simp only [h2] at h
      cases h3 : segPat r2 with
      | none => rw [h3] at h; simp at h
      | some p3 =>
        obtain ⟨a3, r3⟩ := p3
        simp only [h3] at h
        by_cases h4 : ("_git/".toList.isPrefixOf r3) = true
        · have e1 := segPat_sound s a1 r1 h1
          have e2 := segPat_sound r1 a2 r2 h2
          have e3 := segPat_sound r2 a3 r3 h3
          obtain ⟨t, ht⟩ := List.isPrefixOf_iff_prefix.mp h4
          subst e1
          subst e2
          subst e3
          rw [← ht]
          simp only [List.count_append, List.count_cons_self,
            show ("_git/".toList).count '/' = 1 from by decide]
          omega
        · rw [if_neg h4] at h
          simp at h

theorem coreStr_count (org proj repo : Str) (ho2 : '/' ∉ org) (hp2 : '/' ∉ proj)
    (hr2 : '/' ∉ repo) :
    (coreStr org proj repo).count '/' = 4 := by
  have hg : ('_' :: 'g' :: 'i' :: 't' :: '/' :: repo).count '/' = repo.count '/' + 1 := by
    show ("_git".toList ++ '/' :: repo).count '/' = repo.count '/' + 1
    rw [List.count_append, List.count_cons_self,
      show ("_git".toList).count '/' = 0 from by decide]
    omega
  unfold coreStr
  simp only [List.count_append, List.count_cons_self, hg]
  rw [List.count_eq_zero_of_not_mem ho2, List.count_eq_zero_of_not_mem hp2,
    List.count_eq_zero_of_not_mem hr2,
    show ("dev.azure.com".toList).count '/' = 0 from by decide]

theorem matchHttps_build (org proj repo : Str)
    (ho1 : org ≠ []) (ho2 : '/' ∉ org)
    (hp1 : proj ≠ []) (hp2 : '/' ∉ proj)
    (hr2 : '/' ∉ repo) (hmr : matchRepoTail repo = some repo) :
    matchHttps ("https://".toList ++ coreStr org proj repo) =
      some ("dev.azure.com".toList, org, proj, repo) := by
  have hcore := matchCore_build org proj repo ho1 ho2 hp1 hp2 hmr
  unfold matchHttps
  rw [if_pos (isPrefixOf_append "https://".toList (coreStr org proj repo)), drop8]
  cases hat : splitAtFirst '@' (coreStr org proj repo) with
  | none => simp only [hat, hcore]
  | some pp =>
    obtain ⟨pre, post⟩ := pp
    have hnone : matchCore post = none := by
      by_contra hq
      obtain ⟨q, hq2⟩ := Option.ne_none_iff_exists'.mp hq
      have hge4 := matchCore_count post q hq2
      obtain ⟨hsplit, hnotat⟩ := splitAtFirst_eq '@' (coreStr org proj repo) pre post hat
      have hc4 : (coreStr org proj repo).count '/' = 4 :=
        coreStr_count org proj repo ho2 hp2 hr2
      have hcc : pre.count '/' + ('@' :: post).count '/' = 4 := by
        rw [← List.count_append, ← hsplit]
        exact hc4
      rw [List.count_cons_of_ne (by decide : ('/' : Char) ≠ '@')] at hcc
      have hpre1 : 1 ≤ pre.count '/' := by
        have hview : pre ++ '@' :: post =
            "dev.azure.com/".toList ++
              (org ++ '/' :: (proj ++ '/' :: ('_' :: 'g' :: 'i' :: 't' :: '/' :: repo))) := by
          rw [← hsplit]
          rfl
        rcases List.append_eq_append_iff.mp hview with ⟨a2, ha2, hb2⟩ | ⟨c2, hc2, hd2⟩
        · cases a2 with
          | nil =>
            rw [List.append_nil] at ha2
            rw [← ha2]
            decide
          | cons y ys =>
            exfalso
            rw [List.cons_append] at hb2
            injection hb2 with hy hrest
            subst hy
            have hmem : '@' ∈ "dev.azure.com/".toList := by
              rw [ha2]
              exact List.mem_append.mpr (Or.inr (List.mem_cons_self _ _))
            exact (by decide : '@' ∉ "dev.azure.com/".toList) hmem
        · rw [hc2, List.count_append,
            show ("dev.azure.com/".toList).count '/' = 1 from by decide]
          omega
      omega
    simp only [hat, hnone]
    by_cases hpe : pre.isEmpty
    · simp only [hpe, if_true, hcore]
    · simp only [hpe, Bool.false_eq_true, if_false, hcore]

theorem build_eq (org proj repo : Str) :
    build_ado_repo_url "https://dev.azure.com".toList org proj repo none =
      "https://".toList ++ coreStr org proj repo := by
  show "https://dev.azure.com".toList ++ ('/' :: org) ++ ('/' :: proj) ++
      "/_git/".toList ++ repo = "https://".toList ++ coreStr org proj repo
  rw [show "https://dev.azure.com".toList =
      "https://".toList ++ "dev.azure.com".toList from by decide]
  simp [coreStr, List.append_assoc, List.cons_append]

/-- C3 amended: remote-URL parsing inverts repository-URL building for the
public-cloud server on every org, project and repo that is nonempty and
free of `/` and whitespace, provided additionally that the repo name is
not a nonempty name followed by `.git` (the parser's `(?:\.git)?$` strips
such a suffix, and empty segments never match `[^/]+`). -/
theorem parse_build_roundtrip (org proj repo : Str)
    (ho1 : org ≠ []) (ho2 : '/' ∉ org) (ho3 : ∀ c ∈ org, ¬ isPySpace c = true)
    (hp1 : proj ≠ []) (hp2 : '/' ∉ proj) (hp3 : ∀ c ∈ proj, ¬ isPySpace c = true)
    (hr1 : repo ≠ []) (hr2 : '/' ∉ repo) (hr3 : ∀ c ∈ repo, ¬ isPySpace c = true)
    (hgit : ¬(4 < repo.length ∧ repo.drop (repo.length - 4) = ".git".toList)) :
    parse_ado_remote_url
        (build_ado_repo_url "https://dev.azure.com".toList org proj repo none) =
      some ("https://dev.azure.com".toList, org, proj, repo) := by
  have hmr := matchRepoTail_id repo hr1 hr2 hr3 hgit
  have hm := matchHttps_build org proj repo ho1 ho2 hp1 hp2 hr2 hmr
  rw [build_eq]
  unfold parse_ado_remote_url
  simp only [hm,
    show strInfix "dev.azure.com".toList "dev.azure.com".toList = true from by decide,
    if_true]

/-- C3: REFUTED as stated.  The repo name `r.git` contains no slash and no
whitespace, yet the round trip returns `r`: the parser's trailing
`(?:\.git)?$` group strips the suffix. -/
theorem parse_build_dotgit_counterexample :
    ("r.git".toList ≠ ([] : Str) ∧ '/' ∉ "r.git".toList ∧
      ∀ c ∈ "r.git".toList, ¬ isPySpace c = true) ∧
    parse_ado_remote_url
        (build_ado_repo_url "https://dev.azure.com".toList "o".toList "p".toList
          "r.git".toList none) =
      some ("https://dev.azure.com".toList, "o".toList, "p".toList, "r".toList) ∧
    ("r".toList : Str) ≠ "r.git".toList :=
  ⟨by decide, rfl, by decide⟩

/-- C3 witness: the round trip at org `o`, project `p`, repo `r`. -/
theorem parse_build_roundtrip_witness :
    parse_ado_remote_url
        (build_ado_repo_url "https://dev.azure.com".toList "o".toList "p".toList
          "r".toList none) =
      some ("https://dev.azure.com".toList, "o".toList, "p".toList, "r".toList) :=
  parse_build_roundtrip "o".toList "p".toList "r".toList (by decide) (by decide)
    (by decide) (by decide) (by decide) (by decide) (by decide) (by decide) (by decide)
    (by decide)
